import Mathlib

/-!
Verification of `misconfig-configlegacyfeaturedeprecator` (src/main.py).

The tool loads a configuration file (YAML or JSON) and a JSON table of
deprecated features, recursively scans the configuration tree for mapping
keys present in the table, and reports each match with its structural path.

The embedding below models the parsed JSON/YAML value domain (`Json`),
Python semantics of `in`, subscripting and truthiness on such values,
the recursive scanner `ConfigLegacyFeatureDeprecator.find_deprecated_features`,
the two loader methods, `run`, and the exit-code logic of `main`.
Python exceptions are modelled with `Except PyErr`; an uncaught exception
escaping `main` is an `.error` result.
-/

/-- The value domain of parsed YAML/JSON documents: mappings (insertion-ordered
string-keyed entry lists, as Python dicts), sequences, and scalars.
Python `None` is `Json.null`. -/
inductive Json where
  | null : Json
  | bool : Bool → Json
  | num : Int → Json
  | str : String → Json
  | arr : List Json → Json
  | obj : List (String × Json) → Json

/-- A single match reported by the scanner, mirroring the dict
`{"feature": ..., "path": ..., "deprecation_info": ...}` built in
`find_deprecated_features`. -/
structure Finding where
  feature : String
  path : String
  deprecation_info : Json

/-- Python exceptions that the modelled code can raise: `TypeError` from
`key in x` / `x[key]` on unsupported types, `KeyError` from a failed dict
subscript. -/
inductive PyErr where
  | typeError : PyErr
  | keyError : PyErr
deriving DecidableEq

/-- `needle` occurs as a contiguous sublist of the second argument
(Python substring containment on the character list). -/
def subListAt (needle : List Char) : List Char → Bool
  | [] => needle.isEmpty
  | c :: rest => needle.isPrefixOf (c :: rest) || subListAt needle rest

/-- Python `key in v` for a string `key` and a parsed JSON value `v`:
dict → key membership, list → element equality, string → substring test,
anything else → `TypeError`. -/
def pyContains (v : Json) (key : String) : Except PyErr Bool :=
  match v with
  | .obj kvs => .ok (kvs.lookup key).isSome
  | .arr xs => .ok (xs.any (fun x => match x with
      | .str s => s = key
      | _ => false))
  | .str s => .ok (subListAt key.data s.data)
  | _ => .error .typeError

/-- Python `v[key]` for a string `key`: dict lookup (`KeyError` when the key
is absent), `TypeError` on every other value. -/
def pySubscript (v : Json) (key : String) : Except PyErr Json :=
  match v with
  | .obj kvs =>
    match kvs.lookup key with
    | some x => .ok x
    | none => .error .keyError
  | _ => .error .typeError

/-- Python truthiness of a parsed JSON value: `None`, `False`, `0`, `""`,
`[]` and `{}` are falsy, everything else truthy. -/
def pyTruthy : Json → Bool
  | .null => false
  | .bool b => b
  | .num n => n != 0
  | .str s => s != ""
  | .arr xs => !xs.isEmpty
  | .obj kvs => !kvs.isEmpty

/-- Child path for descending into a mapping entry:
`f"{path}.{key}" if path else key` (src/main.py line 93). -/
def mapChildPath (path key : String) : String :=
  if path = "" then key else path ++ "." ++ key

/-- Child path for descending into a sequence element:
`f"{path}[{i}]"` (src/main.py line 103). -/
def seqChildPath (path : String) (i : Nat) : String :=
  path ++ "[" ++ toString i ++ "]"

mutual

/-- `ConfigLegacyFeatureDeprecator.find_deprecated_features(data, path)`
(src/main.py lines 78-106), with `table` standing for
`self.deprecated_features`. Dict nodes are scanned key by key, list nodes
element by element, scalars contribute nothing. Exceptions raised by the
membership test or the subscript propagate. -/
def find_deprecated_features (table : Json) (data : Json) (path : String) :
    Except PyErr (List Finding) :=
  match data with
  | .obj kvs => fdfObj table kvs path
  | .arr xs => fdfArr table xs path 0
  | _ => .ok []

/-- The dict branch of `find_deprecated_features`: iterate over the entries,
append a `Finding` when the key is in the table, then recurse into the value. -/
def fdfObj (table : Json) (kvs : List (String × Json)) (path : String) :
    Except PyErr (List Finding) :=
  match kvs with
  | [] => .ok []
  | (key, value) :: rest =>
    match pyContains table key with
    | .error e => .error e
    | .ok b =>
      match (if b then
               match pySubscript table key with
               | .error e => .error e
               | .ok info =>
                 .ok [{ feature := key, path := mapChildPath path key,
                        deprecation_info := info }]
             else .ok [] : Except PyErr (List Finding)) with
      | .error e => .error e
      | .ok here =>
        match find_deprecated_features table value (mapChildPath path key) with
        | .error e => .error e
        | .ok inValue =>
          match fdfObj table rest path with
          | .error e => .error e
          | .ok inRest => .ok (here ++ inValue ++ inRest)

/-- The list branch of `find_deprecated_features`: recurse into each element
with a bracketed index path; elements are never tested against the table. -/
def fdfArr (table : Json) (xs : List Json) (path : String) (i : Nat) :
    Except PyErr (List Finding) :=
  match xs with
  | [] => .ok []
  | x :: rest =>
    match find_deprecated_features table x (seqChildPath path i) with
    | .error e => .error e
    | .ok inItem =>
      match fdfArr table rest path (i + 1) with
      | .error e => .error e
      | .ok inRest => .ok (inItem ++ inRest)

end

mutual

/-- Pure result of the scan when the deprecation table is a dict with entry
list `table` — in that case no Python exception can arise (proved below). -/
def find_pure (table : List (String × Json)) (data : Json) (path : String) :
    List Finding :=
  match data with
  | .obj kvs => findPureObj table kvs path
  | .arr xs => findPureArr table xs path 0
  | _ => []

/-- Dict branch of `find_pure`. -/
def findPureObj (table : List (String × Json)) (kvs : List (String × Json))
    (path : String) : List Finding :=
  match kvs with
  | [] => []
  | (key, value) :: rest =>
    (match table.lookup key with
     | some info => [{ feature := key, path := mapChildPath path key,
                       deprecation_info := info }]
     | none => []) ++
    find_pure table value (mapChildPath path key) ++
    findPureObj table rest path

/-- List branch of `find_pure`. -/
def findPureArr (table : List (String × Json)) (xs : List Json)
    (path : String) (i : Nat) : List Finding :=
  match xs with
  | [] => []
  | x :: rest =>
    find_pure table x (seqChildPath path i) ++ findPureArr table rest path (i + 1)

end

mutual

/-- Spec-side definition, following the invariant's words: the list of all
(key, path) pairs such that the key appears as a mapping key somewhere in
the tree, with the path built by the dotted/bracketed rules, in depth-first
pre-order. Used to compare the scanner against the spec's characterization. -/
def spec_key_occurrences (data : Json) (path : String) :
    List (String × String) :=
  match data with
  | .obj kvs => specOccObj kvs path
  | .arr xs => specOccArr xs path 0
  | _ => []

/-- Mapping case of `spec_key_occurrences`: each key occurs at its child
path, before every occurrence inside its value. -/
def specOccObj (kvs : List (String × Json)) (path : String) :
    List (String × String) :=
  match kvs with
  | [] => []
  | (key, value) :: rest =>
    (key, mapChildPath path key) ::
      (spec_key_occurrences value (mapChildPath path key) ++ specOccObj rest path)

/-- Sequence case of `spec_key_occurrences`. -/
def specOccArr (xs : List Json) (path : String) (i : Nat) :
    List (String × String) :=
  match xs with
  | [] => []
  | x :: rest =>
    spec_key_occurrences x (seqChildPath path i) ++ specOccArr rest path (i + 1)

end

/-- `ConfigLegacyFeatureDeprecator.load_config_data` (src/main.py lines
34-57). `fileExists` models `os.path.exists`, `parsed` the outcome of the
black-box parser for the declared format on the file's content (`.error`
when parsing raises). Returns `none` (Python `None`) on any failure. -/
def load_config_data (fileExists : Bool) (config_type : String)
    (parsed : Except Unit Json) : Option Json :=
  if !fileExists then none
  else if config_type = "yaml" || config_type = "json" then
    match parsed with
    | .ok j => some j
    | .error _ => none
  else none

/-- `ConfigLegacyFeatureDeprecator.load_deprecated_features` (src/main.py
lines 60-77): fixed JSON format, `none` on missing file or parse error. -/
def load_deprecated_features (fileExists : Bool) (parsed : Except Unit Json) :
    Option Json :=
  if !fileExists then none
  else
    match parsed with
    | .ok j => some j
    | .error _ => none

/-- The state built by `ConfigLegacyFeatureDeprecator.__init__`. -/
structure Deprecator where
  config_data : Option Json
  deprecated_features : Option Json

/-- ASCII lowercasing of a string, modelling `config_type.lower()`; the
CLI restricts the flag to the ASCII choices "yaml" and "json", on which
Python `str.lower()` agrees with per-character ASCII lowercasing. -/
def pyLower (s : String) : String := ⟨s.data.map Char.toLower⟩

/-- `ConfigLegacyFeatureDeprecator.__init__` (src/main.py lines 18-31):
lowercases the config type, loads the deprecation table, then the
configuration. -/
def mkDeprecator (cfgExists : Bool) (config_type : String)
    (cfgParsed : Except Unit Json) (featExists : Bool)
    (featParsed : Except Unit Json) : Deprecator :=
  { deprecated_features := load_deprecated_features featExists featParsed,
    config_data := load_config_data cfgExists (pyLower config_type) cfgParsed }

/-- `ConfigLegacyFeatureDeprecator.run` (src/main.py lines 108-128): if
either loaded value is falsy (Python `not x`), log and return `[]`;
otherwise scan. Logging has no effect on the returned value. -/
def runDeprecator (d : Deprecator) : Except PyErr (List Finding) :=
  match d.config_data, d.deprecated_features with
  | some c, some t =>
    if pyTruthy c && pyTruthy t then find_deprecated_features t c ""
    else .ok []
  | _, _ => .ok []

/-- `main` (src/main.py lines 144-166): exit 1 when either file is missing
(before any load); otherwise construct the deprecator, run it, and exit 2
when findings are non-empty, 0 otherwise. An exception escaping `run`
(never caught in the script) is an `.error` outcome. -/
def mainExit (cfgExists featExists : Bool) (config_type : String)
    (cfgParsed featParsed : Except Unit Json) : Except PyErr Nat :=
  if !cfgExists then .ok 1
  else if !featExists then .ok 1
  else
    match runDeprecator
        (mkDeprecator cfgExists config_type cfgParsed featExists featParsed) with
    | .error e => .error e
    | .ok findings => .ok (if findings.isEmpty then 0 else 2)

/-- The Finding an occurrence (key, path) gives rise to when the key is
present in the table with entry list `table`, and `none` otherwise. -/
def findingOf (table : List (String × Json)) (kp : String × String) :
    Option Finding :=
  (table.lookup kp.1).map
    (fun info => { feature := kp.1, path := kp.2, deprecation_info := info })

/-- The spec's path-construction example tree, `{"a": {"b": [1, {"c": 2}]}}`. -/
def sampleTree : Json :=
  .obj [("a", .obj [("b", .arr [.num 1, .obj [("c", .num 2)]])])]

/-- Every `Json` value has positive size. -/
theorem json_sizeOf_pos (j : Json) : 0 < sizeOf j := by
  cases j <;> simp_arith

/-- Structural induction over `Json` with member-wise hypotheses for the
nested lists, via strong induction on `sizeOf`. -/
theorem json_induction (P : Json → Prop)
    (hnull : P .null) (hbool : ∀ b, P (.bool b)) (hnum : ∀ n, P (.num n))
    (hstr : ∀ s, P (.str s))
    (harr : ∀ xs, (∀ x ∈ xs, P x) → P (.arr xs))
    (hobj : ∀ kvs, (∀ kv ∈ kvs, P kv.2) → P (.obj kvs)) :
    ∀ j, P j := by
  have key : ∀ n (j : Json), sizeOf j ≤ n → P j := by
    intro n
    induction n with
    | zero =>
      intro j hj
      exact absurd hj (by have := json_sizeOf_pos j; omega)
    | succ n ih =>
      intro j hj
      cases j with
      | null => exact hnull
      | bool b => exact hbool b
      | num m => exact hnum m
      | str s => exact hstr s
      | arr xs =>
        refine harr xs (fun x hx => ih x ?_)
        have h1 := List.sizeOf_lt_of_mem hx
        have h2 : sizeOf (Json.arr xs) = 1 + sizeOf xs := by simp
        omega
      | obj kvs =>
        refine hobj kvs (fun kv hkv => ih kv.2 ?_)
        have h1 := List.sizeOf_lt_of_mem hkv
        have h2 : sizeOf (Json.obj kvs) = 1 + sizeOf kvs := by simp
        have h3 : sizeOf kv.2 < sizeOf kv := by
          obtain ⟨k, v⟩ := kv
          simp
        omega
  exact fun j => key (sizeOf j) j le_rfl

/-- With a dict table, the list branch of the scanner raises no exception
and agrees with the pure version, given that each element does. -/
theorem fdfArr_eq_pure (table : List (String × Json)) (xs : List Json)
    (hx : ∀ x ∈ xs, ∀ path, find_deprecated_features (.obj table) x path =
      .ok (find_pure table x path)) :
    ∀ path i, fdfArr (.obj table) xs path i = .ok (findPureArr table xs path i) := by
  induction xs with
  | nil => intro path i; rfl
  | cons x rest ih =>
    intro path i
    have hhead := hx x (List.mem_cons_self x rest)
    have htail := ih (fun y hy => hx y (List.mem_cons_of_mem x hy)) path (i + 1)
    simp only [fdfArr, findPureArr, hhead, htail]

/-- With a dict table, the dict branch of the scanner raises no exception
and agrees with the pure version, given that each entry's value does. -/
theorem fdfObj_eq_pure (table : List (String × Json))
    (kvs : List (String × Json))
    (hv : ∀ kv ∈ kvs, ∀ path, find_deprecated_features (.obj table) kv.2 path =
      .ok (find_pure table kv.2 path)) :
    ∀ path, fdfObj (.obj table) kvs path = .ok (findPureObj table kvs path) := by
  induction kvs with
  | nil => intro path; rfl
  | cons kv rest ih =>
    obtain ⟨key, value⟩ := kv
    intro path
    have hhead := hv (key, value) (List.mem_cons_self _ rest) (mapChildPath path key)
    have htail := ih (fun y hy => hv y (List.mem_cons_of_mem _ hy)) path
    simp only at hhead
    cases hlk : table.lookup key with
    | none =>
      simp [fdfObj, findPureObj, pyContains, hlk, hhead, htail]
    | some info =>
      simp [fdfObj, findPureObj, pyContains, pySubscript, hlk, hhead, htail]

/-- With a dict table the scanner is total: it never raises, and computes
`find_pure`. -/
theorem find_obj_table_eq_pure (table : List (String × Json)) (data : Json) :
    ∀ path, find_deprecated_features (.obj table) data path =
      .ok (find_pure table data path) := by
  induction data using json_induction with
  | hnull => intro path; rfl
  | hbool b => intro path; rfl
  | hnum n => intro path; rfl
  | hstr s => intro path; rfl
  | harr xs ihx =>
    intro path
    simp only [find_deprecated_features, find_pure]
    exact fdfArr_eq_pure table xs ihx path 0
  | hobj kvs ihv =>
    intro path
    simp only [find_deprecated_features, find_pure]
    exact fdfObj_eq_pure table kvs ihv path

/-- The list branch of the pure scan is the filterMap of the list branch of
the spec's occurrence list, given that each element satisfies this. -/
theorem findPureArr_eq_filterMap (table : List (String × Json))
    (xs : List Json)
    (hx : ∀ x ∈ xs, ∀ path, find_pure table x path =
      (spec_key_occurrences x path).filterMap (findingOf table)) :
    ∀ path i, findPureArr table xs path i =
      (specOccArr xs path i).filterMap (findingOf table) := by
  induction xs with
  | nil => intro path i; rfl
  | cons x rest ih =>
    intro path i
    have hhead := hx x (List.mem_cons_self x rest) (seqChildPath path i)
    have htail := ih (fun y hy => hx y (List.mem_cons_of_mem x hy)) path (i + 1)
    simp only [findPureArr, specOccArr, List.filterMap_append, hhead, htail]

/-- The dict branch of the pure scan is the filterMap of the dict branch of
the spec's occurrence list, given that each entry's value satisfies this. -/
theorem findPureObj_eq_filterMap (table : List (String × Json))
    (kvs : List (String × Json))
    (hv : ∀ kv ∈ kvs, ∀ path, find_pure table kv.2 path =
      (spec_key_occurrences kv.2 path).filterMap (findingOf table)) :
    ∀ path, findPureObj table kvs path =
      (specOccObj kvs path).filterMap (findingOf table) := by
  induction kvs with
  | nil => intro path; rfl
  | cons kv rest ih =>
    obtain ⟨key, value⟩ := kv
    intro path
    have hhead := hv (key, value) (List.mem_cons_self _ rest) (mapChildPath path key)
    have htail := ih (fun y hy => hv y (List.mem_cons_of_mem _ hy)) path
    simp only at hhead
    cases hlk : table.lookup key with
    | none =>
      simp [findPureObj, specOccObj, findingOf, List.filterMap_cons,
        List.filterMap_append, hlk, hhead, htail]
    | some info =>
      simp [findPureObj, specOccObj, findingOf, List.filterMap_cons,
        List.filterMap_append, hlk, hhead, htail]

/-- The pure scan is exactly the spec's occurrence list filtered through the
table: one Finding per (key, path) occurrence whose key is in the table. -/
theorem find_pure_eq_filterMap (table : List (String × Json)) (data : Json) :
    ∀ path, find_pure table data path =
      (spec_key_occurrences data path).filterMap (findingOf table) := by
  induction data using json_induction with
  | hnull => intro path; rfl
  | hbool b => intro path; rfl
  | hnum n => intro path; rfl
  | hstr s => intro path; rfl
  | harr xs ihx =>
    intro path
    simp only [find_pure, spec_key_occurrences]
    exact findPureArr_eq_filterMap table xs ihx path 0
  | hobj kvs ihv =>
    intro path
    simp only [find_pure, spec_key_occurrences]
    exact findPureObj_eq_filterMap table kvs ihv path

/-- C1: for every acyclic configuration tree and every string-keyed mapping
table, `find_deprecated_features` succeeds and returns exactly one Finding
per (key-occurrence, path) pair whose key is a mapping key in the tree and
is present in the table, with multiplicity (no deduplication); scalar
values and sequence elements contribute no occurrences, so a value equal to
a deprecated feature name never produces a Finding. -/
theorem claim_C1_scan_is_spec_occurrence_filter
    (table : List (String × Json)) (data : Json) (path : String) :
    find_deprecated_features (.obj table) data path =
      .ok ((spec_key_occurrences data path).filterMap (findingOf table)) := by
  rw [find_obj_table_eq_pure, find_pure_eq_filterMap]

/-- C7: scanning any tree against an empty deprecation table yields no
Findings, and scanning an empty mapping against any table yields no
Findings. -/
theorem claim_C7_empty_table_and_empty_tree :
    (∀ (data : Json) (path : String),
      find_deprecated_features (.obj []) data path = .ok []) ∧
    (∀ table : Json, find_deprecated_features table (.obj []) "" = .ok []) := by
  constructor
  · intro data path
    rw [find_obj_table_eq_pure, find_pure_eq_filterMap]
    exact congrArg Except.ok (List.filterMap_eq_nil_iff.mpr fun a _ => rfl)
  · intro table
    rfl

/-- C8: the Matcher is deterministic — for a fixed pair of tree and table,
two runs of `find_deprecated_features` produce the identical sequence of
Findings. -/
theorem claim_C8_matcher_deterministic (t1 t2 d1 d2 : Json)
    (ht : t1 = t2) (hd : d1 = d2) :
    find_deprecated_features d1 t1 "" = find_deprecated_features d2 t2 "" := by
  rw [ht, hd]

/-- Witness for C8 at a concrete tree and table. -/
theorem claim_C8_matcher_deterministic_witness :
    Json.obj [("k", Json.num 1)] = Json.obj [("k", Json.num 1)] ∧
    find_deprecated_features (Json.obj [("k", Json.null)])
        (Json.obj [("k", Json.num 1)]) "" =
      find_deprecated_features (Json.obj [("k", Json.null)])
        (Json.obj [("k", Json.num 1)]) "" :=
  ⟨rfl, claim_C8_matcher_deterministic _ _ _ _ rfl rfl⟩

/-- C9: with a mapping-typed table the scanner is total on every tree shape
— it always returns a sequence of Findings (never an exception or absence
value) — and traversal is depth-first pre-order: at a mapping node whose
first key matches, that key's Finding precedes all Findings from within its
value, which precede those of the remaining entries. -/
theorem claim_C9_total_and_preorder (table : List (String × Json)) :
    (∀ (data : Json) (path : String),
      find_deprecated_features (.obj table) data path =
        .ok (find_pure table data path)) ∧
    (∀ (key : String) (value : Json) (rest : List (String × Json))
        (path : String) (info : Json), table.lookup key = some info →
      find_pure table (.obj ((key, value) :: rest)) path =
        { feature := key, path := mapChildPath path key,
          deprecation_info := info } ::
          (find_pure table value (mapChildPath path key) ++
            find_pure table (.obj rest) path)) := by
  constructor
  · exact fun data => find_obj_table_eq_pure table data
  · intro key value rest path info hlk
    simp [find_pure, findPureObj, hlk]

/-- Witness for C9 at a concrete table, tree and path. -/
theorem claim_C9_total_and_preorder_witness :
    find_deprecated_features (Json.obj [("k", Json.null)])
        (Json.obj [("k", Json.bool true)]) "x" =
      .ok (find_pure [("k", Json.null)] (Json.obj [("k", Json.bool true)]) "x") ∧
    find_pure [("k", Json.null)] (Json.obj [("k", Json.bool true)]) "" =
      { feature := "k", path := "k", deprecation_info := Json.null } ::
        (find_pure [("k", Json.null)] (Json.bool true) "k" ++
          find_pure [("k", Json.null)] (Json.obj []) "") :=
  ⟨(claim_C9_total_and_preorder [("k", Json.null)]).1 _ "x",
   (claim_C9_total_and_preorder [("k", Json.null)]).2 "k" (Json.bool true) [] "" Json.null rfl⟩

/-- C4: on the spec's example tree `{"a": {"b": [1, {"c": 2}]}}`, any table
containing the key "c" yields a Finding for "c" whose path renders as
`a.b[1].c` — dotted descent for mappings, bracketed indices for sequences,
concatenated left-to-right from the root — and every Finding for "c" in
that scan has exactly that path and that table metadata. -/
theorem claim_C4_path_rendering (table : List (String × Json)) (info : Json)
    (hc : table.lookup "c" = some info) :
    ∃ l, find_deprecated_features (.obj table) sampleTree "" = .ok l ∧
      ({ feature := "c", path := "a.b[1].c", deprecation_info := info } :
        Finding) ∈ l ∧
      ∀ f ∈ l, f.feature = "c" →
        f.path = "a.b[1].c" ∧ f.deprecation_info = info := by
  have hocc : spec_key_occurrences sampleTree "" =
      [("a", "a"), ("b", "a.b"), ("c", "a.b[1].c")] := by rfl
  have h1 := find_obj_table_eq_pure table sampleTree ""
  have h2 := find_pure_eq_filterMap table sampleTree ""
  refine ⟨find_pure table sampleTree "", h1, ?_, ?_⟩
  · rw [h2, hocc]
    exact List.mem_filterMap.mpr
      ⟨("c", "a.b[1].c"), by simp, by simp [findingOf, hc]⟩
  · intro f hf hfeat
    rw [h2, hocc] at hf
    obtain ⟨kp, hkp, hg⟩ := List.mem_filterMap.mp hf
    simp only [List.mem_cons, List.not_mem_nil, or_false] at hkp
    rcases hkp with h | h | h <;> subst h <;>
      simp only [findingOf, Option.map_eq_some'] at hg <;>
      obtain ⟨x, hx, rfl⟩ := hg
    · exact absurd hfeat (by simp)
    · exact absurd hfeat (by simp)
    · have hx2 : table.lookup "c" = some x := hx
      rw [hc] at hx2
      cases hx2
      exact ⟨rfl, rfl⟩

/-- Witness for C4 with the one-entry table containing "c". -/
theorem claim_C4_path_rendering_witness :
    ([(("c" : String), Json.null)].lookup "c" = some Json.null) ∧
    ∃ l, find_deprecated_features (.obj [("c", Json.null)]) sampleTree "" =
        .ok l ∧
      ({ feature := "c", path := "a.b[1].c", deprecation_info := Json.null } :
        Finding) ∈ l ∧
      ∀ f ∈ l, f.feature = "c" →
        f.path = "a.b[1].c" ∧ f.deprecation_info = Json.null :=
  ⟨rfl, claim_C4_path_rendering [("c", Json.null)] Json.null rfl⟩

/-- C3: the process exits 1 when either input file is missing, decided
before any load (the parse outcomes and table contents are irrelevant);
otherwise, with the deprecation file parsing to a JSON object, the run
completes without exception and exits 2 exactly when the scan found at
least one deprecated feature, 0 when it found none. -/
theorem claim_C3_exit_codes (config_type : String)
    (cfgParsed featParsed : Except Unit Json) :
    (∀ cfgExists featExists, (cfgExists = false ∨ featExists = false) →
      mainExit cfgExists featExists config_type cfgParsed featParsed = .ok 1) ∧
    (∀ tbl : List (String × Json), featParsed = .ok (.obj tbl) →
      ∃ l, runDeprecator
          (mkDeprecator true config_type cfgParsed true featParsed) = .ok l ∧
        mainExit true true config_type cfgParsed featParsed =
          .ok (if l.isEmpty then 0 else 2)) := by
  constructor
  · intro cfgExists featExists h
    rcases h with h | h
    · subst h; rfl
    · subst h; cases cfgExists <;> rfl
  · intro tbl hfp
    subst hfp
    obtain ⟨l, hl⟩ : ∃ l, runDeprecator
        (mkDeprecator true config_type cfgParsed true (.ok (.obj tbl))) =
          .ok l := by
      simp only [runDeprecator, mkDeprecator, load_deprecated_features,
        Bool.not_true, Bool.false_eq_true, if_false]
      cases load_config_data true (pyLower config_type) cfgParsed with
      | none => exact ⟨[], rfl⟩
      | some c =>
        by_cases h : (pyTruthy c && pyTruthy (.obj tbl)) = true
        · exact ⟨find_pure tbl c "", by
            simp only [h, if_true]
            exact find_obj_table_eq_pure tbl c ""⟩
        · exact ⟨[], by simp [h]⟩
    exact ⟨l, hl, by simp [mainExit, hl]⟩

/-- Witness for C3: a missing config file exits 1; with both files present,
a config `{"k": 1}` against table `{}` exits per the findings list. -/
theorem claim_C3_exit_codes_witness :
    mainExit false true "json" (.ok (Json.obj [("k", Json.num 1)]))
      (.ok (Json.obj [])) = .ok 1 ∧
    ∃ l, runDeprecator (mkDeprecator true "json"
        (.ok (Json.obj [("k", Json.num 1)])) true (.ok (Json.obj []))) =
          .ok l ∧
      mainExit true true "json" (.ok (Json.obj [("k", Json.num 1)]))
        (.ok (Json.obj [])) = .ok (if l.isEmpty then 0 else 2) :=
  ⟨(claim_C3_exit_codes "json" (.ok (Json.obj [("k", Json.num 1)]))
      (.ok (Json.obj []))).1 false true (Or.inl rfl),
   (claim_C3_exit_codes "json" (.ok (Json.obj [("k", Json.num 1)]))
      (.ok (Json.obj []))).2 [] rfl⟩

/-- C6: the configuration loader returns the failure value `None` exactly
when the file is absent, the declared format is outside {yaml, json}, or
the content fails to parse as the declared format; it never raises, and on
success it returns exactly the parsed tree. -/
theorem claim_C6_loader_failure_taxonomy (fileExists : Bool)
    (config_type : String) (parsed : Except Unit Json) :
    (load_config_data fileExists config_type parsed = none ↔
      (fileExists = false ∨ (config_type ≠ "yaml" ∧ config_type ≠ "json") ∨
        parsed = .error ())) ∧
    (∀ j, fileExists = true → (config_type = "yaml" ∨ config_type = "json") →
      parsed = .ok j → load_config_data fileExists config_type parsed = some j) := by
  constructor
  · cases fileExists with
    | false => simp [load_config_data]
    | true =>
      by_cases hy : config_type = "yaml"
      · cases parsed with
        | ok j => simp [load_config_data, hy]
        | error e => cases e; simp [load_config_data, hy]
      · by_cases hj : config_type = "json"
        · cases parsed with
          | ok j => simp [load_config_data, hy, hj]
          | error e => cases e; simp [load_config_data, hy, hj]
        · simp [load_config_data, hy, hj]
  · intro j hex hfmt hp
    subst hex
    subst hp
    rcases hfmt with h | h <;> simp [load_config_data, h]

/-- Witness for C6: an existing JSON file parsing to `null` loads as the
tree `null`, and the failure condition is decidably false there. -/
theorem claim_C6_loader_failure_taxonomy_witness :
    (load_config_data true "json" (.ok Json.null) = none ↔
      (true = false ∨ (("json" : String) ≠ "yaml" ∧ ("json" : String) ≠ "json") ∨
        (.ok Json.null : Except Unit Json) = .error ())) ∧
    load_config_data true "json" (.ok Json.null) = some Json.null :=
  ⟨(claim_C6_loader_failure_taxonomy true "json" (.ok Json.null)).1,
   (claim_C6_loader_failure_taxonomy true "json" (.ok Json.null)).2
     Json.null rfl (Or.inr rfl) rfl⟩

/-- If every key occurring in the elements tests `False` for membership in
the table value, the list branch of the scan succeeds with no Findings. -/
theorem fdfArr_no_contains (t : Json) (ys : List Json)
    (hy : ∀ y ∈ ys, ∀ path,
      (∀ kp ∈ spec_key_occurrences y path, pyContains t kp.1 = .ok false) →
      find_deprecated_features t y path = .ok []) :
    ∀ path i, (∀ kp ∈ specOccArr ys path i, pyContains t kp.1 = .ok false) →
      fdfArr t ys path i = .ok [] := by
  induction ys with
  | nil => intro path i h; rfl
  | cons y rest ih =>
    intro path i h
    have hhead := hy y (List.mem_cons_self y rest) (seqChildPath path i)
      (fun kp hkp => h kp (by
        simp only [specOccArr, List.mem_append]
        exact Or.inl hkp))
    have htail := ih (fun z hz => hy z (List.mem_cons_of_mem y hz)) path (i + 1)
      (fun kp hkp => h kp (by
        simp only [specOccArr, List.mem_append]
        exact Or.inr hkp))
    simp [fdfArr, hhead, htail]

/-- If every key occurring in the entry list tests `False` for membership
in the table value, the dict branch of the scan succeeds with no Findings. -/
theorem fdfObj_no_contains (t : Json) (kvs : List (String × Json))
    (hv : ∀ kv ∈ kvs, ∀ path,
      (∀ kp ∈ spec_key_occurrences kv.2 path, pyContains t kp.1 = .ok false) →
      find_deprecated_features t kv.2 path = .ok []) :
    ∀ path, (∀ kp ∈ specOccObj kvs path, pyContains t kp.1 = .ok false) →
      fdfObj t kvs path = .ok [] := by
  induction kvs with
  | nil => intro path h; rfl
  | cons kv rest ih =>
    obtain ⟨key, value⟩ := kv
    intro path h
    have hkey : pyContains t key = .ok false :=
      h (key, mapChildPath path key) (by simp [specOccObj])
    have hhead := hv (key, value) (List.mem_cons_self _ rest)
      (mapChildPath path key)
      (fun kp hkp => h kp (by
        simp only [specOccObj, List.mem_cons, List.mem_append]
        exact Or.inr (Or.inl hkp)))
    have htail := ih (fun z hz => hv z (List.mem_cons_of_mem _ hz)) path
      (fun kp hkp => h kp (by
        simp only [specOccObj, List.mem_cons, List.mem_append]
        exact Or.inr (Or.inr hkp)))
    simp only at hhead
    simp [fdfObj, hkey, hhead, htail]

/-- If the table value reports `False` membership for every key occurring
in the tree, the scan succeeds with no Findings (whatever the table's
type). -/
theorem find_no_contains (t : Json) (data : Json) :
    ∀ path,
      (∀ kp ∈ spec_key_occurrences data path, pyContains t kp.1 = .ok false) →
      find_deprecated_features t data path = .ok [] := by
  induction data using json_induction with
  | hnull => intro path h; rfl
  | hbool b => intro path h; rfl
  | hnum n => intro path h; rfl
  | hstr s => intro path h; rfl
  | harr xs ihx =>
    intro path h
    simp only [find_deprecated_features]
    exact fdfArr_no_contains t xs ihx path 0
      (fun kp hkp => h kp (by simpa only [spec_key_occurrences] using hkp))
  | hobj kvs ihv =>
    intro path h
    simp only [find_deprecated_features]
    exact fdfObj_no_contains t kvs ihv path
      (fun kp hkp => h kp (by simpa only [spec_key_occurrences] using hkp))

/-- C5 counterexample: with the deprecated-features root being the JSON
array `["old_setting"]` and the configuration `{"old_setting": 1}`, the
membership test matches the array element and the subsequent subscript
raises `TypeError`: the scan fails with an exception instead of producing
no Findings, refuting the claim that non-mapping roots never match and
never fail. -/
theorem claim_C5_counterexample :
    find_deprecated_features (.arr [.str "old_setting"])
        (.obj [("old_setting", Json.num 1)]) "" = .error .typeError ∧
    mainExit true true "json" (.ok (.obj [("old_setting", Json.num 1)]))
        (.ok (.arr [.str "old_setting"])) = .error .typeError := by
  constructor <;> rfl

/-- C5 amended: a falsy non-mapping table root (empty array or string, 0,
false, null) makes `run` skip the Matcher and produce no Findings; a truthy
array (or string) root is scanned with Python membership semantics — when
no key occurring in the tree tests as a member, the scan produces no
Findings and does not fail — but a matching key raises `TypeError` (see the
counterexample), and a truthy number root raises `TypeError` at the first
mapping key encountered. -/
theorem claim_C5_nonmapping_table (c t : Json) (ht : pyTruthy t = false) :
    (runDeprecator { config_data := some c, deprecated_features := some t } =
      .ok []) ∧
    (∀ (xs : List Json) (data : Json),
      (∀ kp ∈ spec_key_occurrences data "",
        pyContains (.arr xs) kp.1 = .ok false) →
      find_deprecated_features (.arr xs) data "" = .ok []) ∧
    (∀ (n : Int) (key : String) (value : Json)
        (rest : List (String × Json)) (path : String),
      find_deprecated_features (.num n) (.obj ((key, value) :: rest)) path =
        .error .typeError) := by
  refine ⟨?_, ?_, ?_⟩
  · simp [runDeprecator, ht]
  · exact fun xs data h => find_no_contains (.arr xs) data "" h
  · intro n key value rest path
    rfl

/-- Witness for C5 amended: empty-array table root skips the scan; the
array root `["zz"]` matches nothing in `{"k": null}`; the number root `5`
raises at the first key. -/
theorem claim_C5_nonmapping_table_witness :
    pyTruthy (.arr []) = false ∧
    (runDeprecator (Deprecator.mk (some (Json.obj [("k", Json.null)]))
        (some (.arr []))) = .ok []) ∧
    find_deprecated_features (.arr [.str "zz"]) (.obj [("k", Json.null)]) "" =
      .ok [] ∧
    find_deprecated_features (.num 5) (.obj [("k", Json.null)]) "p" =
      .error .typeError := by
  refine ⟨rfl, ?_, ?_, ?_⟩
  · exact (claim_C5_nonmapping_table (Json.obj [("k", Json.null)])
      (.arr []) rfl).1
  · exact (claim_C5_nonmapping_table (Json.obj [("k", Json.null)])
      (.arr []) rfl).2.1 [.str "zz"] (.obj [("k", Json.null)])
      (fun kp hkp => by
        have : kp = ("k", "k") := by
          simpa [spec_key_occurrences, specOccObj, mapChildPath] using hkp
        subst this
        rfl)
  · exact (claim_C5_nonmapping_table (Json.obj [("k", Json.null)])
      (.arr []) rfl).2.2 5 "k" Json.null [] "p"

/-- C2 counterexample: with both files present, a config file that fails to
parse as the declared JSON format exits with code 0 — the very same status
as a successful scan with zero findings (second conjunct) — refuting the
claim that the run takes a distinct error exit path. -/
theorem claim_C2_counterexample :
    mainExit true true "json" (.error ()) (.ok (Json.obj [("x", Json.null)])) =
      .ok 0 ∧
    mainExit true true "json" (.ok (Json.obj [("k", Json.num 1)]))
      (.ok (Json.obj [("x", Json.null)])) = .ok 0 := by
  constructor <;> rfl

/-- C2 amended: when both input files exist but the configuration content
fails to parse as the declared format, the load returns `None`, `run`
skips the Matcher and returns an empty Finding list — but the process then
exits with code 0, the same exit status as a successful scan with zero
findings; the failure is only logged. -/
theorem claim_C2_parse_failure_exits_zero (config_type : String)
    (featParsed : Except Unit Json) :
    runDeprecator (mkDeprecator true config_type (.error ()) true featParsed) =
      .ok [] ∧
    mainExit true true config_type (.error ()) featParsed = .ok 0 := by
  have hcd : load_config_data true (pyLower config_type) (.error ()) = none := by
    by_cases h : ((pyLower config_type) = "yaml" ∨ (pyLower config_type) = "json")
    · rcases h with h | h <;> simp [load_config_data, h]
    · push_neg at h
      simp [load_config_data, h.1, h.2]
  have hrun : runDeprecator
      (mkDeprecator true config_type (.error ()) true featParsed) = .ok [] := by
    simp only [runDeprecator, mkDeprecator, hcd]
  exact ⟨hrun, by simp [mainExit, hrun]⟩

/-- C10: the six falsy parsed values are all falsy in the model; whenever
either loaded value is falsy — in particular a valid but empty
configuration mapping, or an empty deprecation table — `run` takes the
load-failure branch and returns an empty list without invoking the Matcher
(the table may even be one whose scan would raise), and the process exits
with code 0. -/
theorem claim_C10_falsy_values_take_failure_branch :
    (pyTruthy .null = false ∧ pyTruthy (.bool false) = false ∧
     pyTruthy (.num 0) = false ∧ pyTruthy (.str "") = false ∧
     pyTruthy (.obj []) = false ∧ pyTruthy (.arr []) = false) ∧
    (∀ (c t : Json), (pyTruthy c = false ∨ pyTruthy t = false) →
      runDeprecator { config_data := some c, deprecated_features := some t } =
        .ok []) ∧
    (∀ (config_type : String) (c t : Json),
      (pyTruthy c = false ∨ pyTruthy t = false) →
      mainExit true true config_type (.ok c) (.ok t) = .ok 0) := by
  refine ⟨⟨rfl, rfl, rfl, rfl, rfl, rfl⟩, ?_, ?_⟩
  · intro c t h
    rcases h with h | h <;> simp [runDeprecator, h]
  · intro config_type c t h
    have hrun : runDeprecator
        (mkDeprecator true config_type (.ok c) true (.ok t)) = .ok [] := by
      by_cases hfmt : ((pyLower config_type) = "yaml" ∨ (pyLower config_type) = "json")
      · have hcd : load_config_data true (pyLower config_type) (.ok c) = some c := by
          rcases hfmt with hf | hf <;> simp [load_config_data, hf]
        rcases h with h | h <;>
          simp [runDeprecator, mkDeprecator, load_deprecated_features, hcd, h]
      · push_neg at hfmt
        have hcd : load_config_data true (pyLower config_type) (.ok c) = none := by
          simp [load_config_data, hfmt.1, hfmt.2]
        simp only [runDeprecator, mkDeprecator, hcd]
    simp [mainExit, hrun]

/-- Witness for C10: the empty configuration mapping against the table
`{"x": null}` skips the Matcher and exits 0. -/
theorem claim_C10_falsy_values_take_failure_branch_witness :
    pyTruthy (Json.obj []) = false ∧
    runDeprecator (Deprecator.mk (some (Json.obj []))
      (some (Json.obj [("x", Json.null)]))) = .ok [] ∧
    mainExit true true "yaml" (.ok (Json.obj []))
      (.ok (Json.obj [("x", Json.null)])) = .ok 0 :=
  ⟨rfl,
   claim_C10_falsy_values_take_failure_branch.2.1 (Json.obj [])
     (Json.obj [("x", Json.null)]) (Or.inl rfl),
   claim_C10_falsy_values_take_failure_branch.2.2 "yaml" (Json.obj [])
     (Json.obj [("x", Json.null)]) (Or.inl rfl)⟩
